import Mathlib

/-!
Verification of the gba-ecs-rs entity-component storage and query engine.

The definitions below are a shallow embedding of the Rust sources:
  src/gba-ecs-rs/src/entity.rs, container.rs, hash_container.rs,
  world.rs, zip.rs and query.rs.
Machine integers (usize on the 32-bit GBA target) are modelled as Nat;
operations that can panic in Rust return Option, with none standing for
the panic. The file vec_container.rs (VecComponentContainer) is not part
of the provided sources; the definitions that depend on it are modelled
from the specification and are marked as such in their doc comments.
-/

namespace GbaEcs

/-- Entity from entity.rs: a positional index paired with a generation
counter. -/
structure Entity where
  index : Nat
  generation : Nat
  deriving DecidableEq

/-- Entity::new sets the given index and generation zero. -/
def Entity.new (index : Nat) : Entity :=
  { index := index, generation := 0 }

/-- The largest usize value on the 32-bit GBA target. -/
def USIZE_MAX : Nat := 2 ^ 32 - 1

/-- The while loop of DenseComponentContainer::add_entity in container.rs:
push empty slots until the backing length exceeds the target index. -/
def growLoop {α : Type} (idx : Nat) (l : List (Option α)) : List (Option α) :=
  if h : l.length ≤ idx then growLoop idx (l ++ [none]) else l
termination_by idx + 1 - l.length
decreasing_by simp [List.length_append]; omega

/-- Closed form of the grow loop: append exactly enough empty slots. -/
theorem growLoop_eq {α : Type} (idx : Nat) (l : List (Option α)) :
    growLoop idx l = l ++ List.replicate (idx + 1 - l.length) none := by
  rw [growLoop]
  split
  next h =>
    rw [growLoop_eq idx (l ++ [none])]
    have h2 : idx + 1 - l.length = (idx + 1 - (l.length + 1)) + 1 := by omega
    rw [h2]
    simp [List.replicate_succ, List.append_assoc]
  next h =>
    have h2 : idx + 1 - l.length = 0 := by omega
    simp [h2]
termination_by idx + 1 - l.length
decreasing_by simp [List.length_append]; omega

/-- DenseComponentContainer from container.rs: a growable sequence of
optional component values, positionally aligned with entity indices. -/
structure DenseComponentContainer (α : Type) where
  container : List (Option α)
  deriving DecidableEq

/-- DenseComponentContainer::new. -/
def DenseComponentContainer.new {α : Type} : DenseComponentContainer α :=
  { container := [] }

/-- DenseComponentContainer::add_entity: grow the backing sequence with
empty slots until it covers the entity index. -/
def DenseComponentContainer.add_entity {α : Type}
    (s : DenseComponentContainer α) (e : Entity) : DenseComponentContainer α :=
  { container := growLoop e.index s.container }

/-- DenseComponentContainer::get: bounds-checked positional lookup that
flattens the inner option; never panics. -/
def DenseComponentContainer.get {α : Type}
    (s : DenseComponentContainer α) (e : Entity) : Option α :=
  match s.container[e.index]? with
  | some (some c) => some c
  | _ => none

/-- DenseComponentContainer::set writes through the index operator, which
panics when the index is not covered; the panic is modelled as none. -/
def DenseComponentContainer.set {α : Type}
    (s : DenseComponentContainer α) (e : Entity) (v : α) :
    Option (DenseComponentContainer α) :=
  if e.index < s.container.length then
    some { container := s.container.set e.index (some v) }
  else
    none

/-- The sequence of (index, component) callback arguments produced by
DenseComponentContainer::for_each: scan indices 0..len in order and skip
the empty slots. -/
def DenseComponentContainer.forEachCalls {α : Type}
    (s : DenseComponentContainer α) : List (Nat × α) :=
  (List.range s.container.length).filterMap fun i =>
    ((s.container[i]?).join).map fun a => (i, a)

/-- C8: on a dense container, add_entity grows the backing length to
max(previous length, index + 1), fills the new slots with the empty value,
preserves every previously stored entry, is idempotent once the index is
covered, and never shrinks the backing sequence. -/
theorem dense_add_entity_grow_spec {α : Type}
    (s : DenseComponentContainer α) (e : Entity) :
    (s.add_entity e).container.length = max s.container.length (e.index + 1) ∧
    (∀ i, i < s.container.length →
      (s.add_entity e).container[i]? = s.container[i]?) ∧
    (∀ i, s.container.length ≤ i → i ≤ e.index →
      (s.add_entity e).container[i]? = some none) ∧
    (∀ e2 : Entity, e2.index < (s.add_entity e).container.length →
      (s.add_entity e).add_entity e2 = s.add_entity e) ∧
    s.container.length ≤ (s.add_entity e).container.length := by
  refine ⟨?_, ?_, ?_, ?_, ?_⟩
  · simp [DenseComponentContainer.add_entity, growLoop_eq]
    omega
  · intro i hi
    simp [DenseComponentContainer.add_entity, growLoop_eq,
      List.getElem?_append_left hi]
  · intro i hlow hhigh
    simp only [DenseComponentContainer.add_entity, growLoop_eq]
    rw [List.getElem?_append_right hlow]
    rw [List.getElem?_replicate]
    simp
    omega
  · intro e2 h2
    simp only [DenseComponentContainer.add_entity, growLoop_eq] at *
    have h3 : e2.index + 1 - (s.container ++
        List.replicate (e.index + 1 - s.container.length) none).length = 0 := by
      simp at h2 ⊢
      omega
    rw [h3]
    simp
  · simp [DenseComponentContainer.add_entity, growLoop_eq]

/-- Witness for C8 at a concrete container and entity. -/
theorem dense_add_entity_grow_spec_witness :
    (DenseComponentContainer.add_entity ⟨[some 7]⟩ (Entity.new 2)).container[1]? =
      some (none : Option Nat) :=
  (dense_add_entity_grow_spec ⟨[some 7]⟩ (Entity.new 2)).2.2.1 1
    (by decide) (by decide)

/-- C7: dense set succeeds exactly when the entity index is covered by the
backing sequence (an uncovered index is a fatal panic), while get is total
and returns the empty result both past the backing length and on a covered
slot that was never set. -/
theorem dense_set_covered_get_total {α : Type}
    (s : DenseComponentContainer α) (e : Entity) (v : α) :
    ((s.set e v).isSome ↔ e.index < s.container.length) ∧
    (s.container.length ≤ e.index → s.get e = none) ∧
    (s.container[e.index]? = some none → s.get e = none) := by
  refine ⟨?_, ?_, ?_⟩
  · simp only [DenseComponentContainer.set]
    split <;> simp_all
  · intro h
    simp [DenseComponentContainer.get, List.getElem?_eq_none h]
  · intro h
    simp [DenseComponentContainer.get, h]

/-- Witness for C7 at a concrete container and entity. -/
theorem dense_set_covered_get_total_witness :
    (DenseComponentContainer.get ⟨[some 3, none]⟩ (Entity.new 5) = none) ∧
    (DenseComponentContainer.get ⟨[some 3, none]⟩ (Entity.new 1) = none) ∧
    (DenseComponentContainer.set ⟨[some 3, none]⟩ (Entity.new 0) (9 : Nat)).isSome := by
  refine ⟨?_, ?_, ?_⟩
  · exact (dense_set_covered_get_total ⟨[some 3, none]⟩ (Entity.new 5) 9).2.1
      (by decide)
  · exact (dense_set_covered_get_total ⟨[some 3, none]⟩ (Entity.new 1) 9).2.2
      (by decide)
  · exact (dense_set_covered_get_total ⟨[some 3, none]⟩ (Entity.new 0) 9).1.mpr
      (by decide)

/-- The hash map of the external agb crate, modelled as an association
list with unique keys: insert replaces any existing binding for the key,
get returns the bound value, and iteration visits every stored entry
once. -/
def hashInsert {α : Type} (k : Nat) (v : α) (l : List (Nat × α)) :
    List (Nat × α) :=
  if l.any (fun p => p.1 == k) then
    l.map (fun p => if p.1 == k then (k, v) else p)
  else
    (k, v) :: l

/-- Lookup in the association-list model of the agb hash map. -/
def hashFind {α : Type} (l : List (Nat × α)) (k : Nat) : Option α :=
  (l.find? (fun p => p.1 == k)).map Prod.snd

/-- HashComponentContainer from hash_container.rs: a mapping from entity
index to component value backed by the agb hash map. -/
structure HashComponentContainer (α : Type) where
  container : List (Nat × α)
  deriving DecidableEq

/-- HashComponentContainer::new. -/
def HashComponentContainer.new {α : Type} : HashComponentContainer α :=
  { container := [] }

/-- HashComponentContainer::add_entity has an empty body. -/
def HashComponentContainer.add_entity {α : Type}
    (s : HashComponentContainer α) (_e : Entity) : HashComponentContainer α :=
  s

/-- HashComponentContainer::set inserts under the entity index. -/
def HashComponentContainer.set {α : Type}
    (s : HashComponentContainer α) (e : Entity) (v : α) :
    HashComponentContainer α :=
  { container := hashInsert e.index v s.container }

/-- HashComponentContainer::get looks up the entity index. -/
def HashComponentContainer.get {α : Type}
    (s : HashComponentContainer α) (e : Entity) : Option α :=
  hashFind s.container e.index

/-- The sequence of (index, component) callback arguments produced by
HashComponentContainer::for_each: every stored entry once, in storage
order. -/
def HashComponentContainer.forEachCalls {α : Type}
    (s : HashComponentContainer α) : List (Nat × α) :=
  s.container

/-- SparseComponentContainer from container.rs: the same hash-map backed
storage, with an empty add_entity body. -/
structure SparseComponentContainer (α : Type) where
  container : List (Nat × α)
  deriving DecidableEq

/-- SparseComponentContainer::add_entity has an empty body. -/
def SparseComponentContainer.add_entity {α : Type}
    (s : SparseComponentContainer α) (_e : Entity) : SparseComponentContainer α :=
  s

/-- C10: on the sparse mapped (hash based) containers, add_entity leaves
the container state completely unchanged for every entity argument. -/
theorem hash_add_entity_noop {α : Type} :
    (∀ (s : HashComponentContainer α) (e : Entity), s.add_entity e = s) ∧
    (∀ (s : SparseComponentContainer α) (e : Entity), s.add_entity e = s) :=
  ⟨fun _ _ => rfl, fun _ _ => rfl⟩

/-- A trace step against one component container: the registration
broadcast reaching the container, or a set call. -/
inductive ContainerOp (α : Type) where
  | add (e : Entity)
  | set (e : Entity) (v : α)

/-- The value of the last set call targeting index i in the trace, if
any. -/
def lastSet {α : Type} (i : Nat) : List (ContainerOp α) → Option α
  | [] => none
  | op :: ops =>
    match lastSet i ops with
    | some v => some v
    | none =>
      match op with
      | .set e v => if e.index = i then some v else none
      | .add _ => none

/-- Run a trace against a dense container; none when some set call
panicked on an uncovered index. -/
def denseRun {α : Type} (s : DenseComponentContainer α) :
    List (ContainerOp α) → Option (DenseComponentContainer α)
  | [] => some s
  | .add e :: ops => denseRun (s.add_entity e) ops
  | .set e v :: ops =>
    match s.set e v with
    | some s2 => denseRun s2 ops
    | none => none

/-- Run a trace against a hash container; never panics. -/
def hashRun {α : Type} (s : HashComponentContainer α) :
    List (ContainerOp α) → HashComponentContainer α
  | [] => s
  | .add e :: ops => hashRun (s.add_entity e) ops
  | .set e v :: ops => hashRun (s.set e v) ops

/-- Growing a dense container never changes any get result. -/
theorem dense_get_add_entity {α : Type} (s : DenseComponentContainer α)
    (e e2 : Entity) : (s.add_entity e).get e2 = s.get e2 := by
  by_cases h : e2.index < s.container.length
  · simp [DenseComponentContainer.get, DenseComponentContainer.add_entity,
      growLoop_eq, List.getElem?_append_left h]
  · push_neg at h
    simp only [DenseComponentContainer.get, DenseComponentContainer.add_entity,
      growLoop_eq]
    rw [List.getElem?_append_right h, List.getElem?_replicate,
      List.getElem?_eq_none h]
    by_cases hc : e2.index - s.container.length <
        e.index + 1 - s.container.length
    · rw [if_pos hc]
    · rw [if_neg hc]

/-- A successful dense set rewrites exactly the targeted index. -/
theorem dense_get_set {α : Type} (s s2 : DenseComponentContainer α)
    (e : Entity) (v : α) (h : s.set e v = some s2) (e2 : Entity) :
    s2.get e2 = if e.index = e2.index then some v else s.get e2 := by
  simp only [DenseComponentContainer.set] at h
  split at h
  next hlt =>
    cases h
    simp only [DenseComponentContainer.get, List.getElem?_set]
    by_cases he : e.index = e2.index
    · simp [he, he ▸ hlt]
    · simp [he]
  next => cases h

/-- Running a trace against a dense container: every surviving get sees
the last set for its index, or the prior content when the trace never set
that index. -/
theorem denseRun_get {α : Type} (ops : List (ContainerOp α))
    (s s2 : DenseComponentContainer α) (h : denseRun s ops = some s2)
    (e : Entity) :
    s2.get e = (lastSet e.index ops).or (s.get e) := by
  induction ops generalizing s with
  | nil =>
    simp only [denseRun, Option.some.injEq] at h
    subst h
    simp [lastSet, Option.or]
  | cons op ops ih =>
    cases op with
    | add e1 =>
      simp only [denseRun] at h
      rw [ih _ h, dense_get_add_entity]
      cases hl : lastSet e.index ops <;> simp [lastSet, hl, Option.or]
    | set e1 v =>
      simp only [denseRun] at h
      cases hset : s.set e1 v with
      | none => rw [hset] at h; cases h
      | some s1 =>
        rw [hset] at h
        rw [ih _ h, dense_get_set s s1 e1 v hset e]
        cases hl : lastSet e.index ops with
        | some w => simp [lastSet, hl, Option.or]
        | none =>
          by_cases he : e1.index = e.index <;>
            simp [lastSet, hl, Option.or, he]

/-- Running a trace against a hash container: get sees the last set for
its index, or the prior content when the trace never set that index. -/
theorem hashFind_map_replace_ne {α : Type} (k i : Nat) (v : α)
    (l : List (Nat × α)) (h : k ≠ i) :
    (l.map (fun p => if p.1 == k then (k, v) else p)).find?
        (fun p => p.1 == i) =
      l.find? (fun p => p.1 == i) := by
  induction l with
  | nil => rfl
  | cons p t ih =>
    simp only [List.map_cons]
    by_cases hp : p.1 = k
    · rw [if_pos (by simpa using hp)]
      rw [List.find?_cons_of_neg _ (by simp [h])]
      rw [List.find?_cons_of_neg _ (by simp [hp, h])]
      exact ih
    · rw [if_neg (by simpa using hp)]
      by_cases hi : p.1 = i
      · rw [List.find?_cons_of_pos _ (by simpa using hi),
          List.find?_cons_of_pos _ (by simpa using hi)]
      · rw [List.find?_cons_of_neg _ (by simpa using hi),
          List.find?_cons_of_neg _ (by simpa using hi)]
        exact ih

/-- Replacing the binding of a present key makes find return the new
binding. -/
theorem hashFind_map_replace_eq {α : Type} (k : Nat) (v : α)
    (l : List (Nat × α)) (h : l.any (fun p => p.1 == k)) :
    (l.map (fun p => if p.1 == k then (k, v) else p)).find?
        (fun p => p.1 == k) = some (k, v) := by
  induction l with
  | nil => simp at h
  | cons p t ih =>
    simp only [List.map_cons]
    by_cases hp : p.1 = k
    · rw [if_pos (by simpa using hp)]
      rw [List.find?_cons_of_pos _ (by simp)]
    · rw [if_neg (by simpa using hp)]
      rw [List.find?_cons_of_neg _ (by simpa using hp)]
      apply ih
      simp only [List.any_cons, Bool.or_eq_true] at h
      rcases h with h | h
      · exact absurd (by simpa using h) hp
      · exact h

/-- Hash insert followed by find: the inserted key sees the new value,
every other key is untouched. -/
theorem hashFind_insert {α : Type} (k i : Nat) (v : α)
    (l : List (Nat × α)) :
    hashFind (hashInsert k v l) i = if k = i then some v else hashFind l i := by
  by_cases hk : k = i
  · subst hk
    rw [if_pos rfl]
    unfold hashInsert hashFind
    split
    next h => rw [hashFind_map_replace_eq k v l h]; rfl
    next h => rw [List.find?_cons_of_pos _ (by simp)]; rfl
  · rw [if_neg hk]
    unfold hashInsert hashFind
    split
    next h => rw [hashFind_map_replace_ne k i v l hk]
    next h => rw [List.find?_cons_of_neg _ (by simp [hk])]

/-- Trace lemma for the hash container. -/
theorem hashRun_get {α : Type} (ops : List (ContainerOp α))
    (s : HashComponentContainer α) (e : Entity) :
    (hashRun s ops).get e = (lastSet e.index ops).or (s.get e) := by
  induction ops generalizing s with
  | nil => simp [hashRun, lastSet, Option.or]
  | cons op ops ih =>
    cases op with
    | add e1 =>
      simp only [hashRun]
      rw [ih]
      cases hl : lastSet e.index ops <;>
        simp [lastSet, hl, Option.or, HashComponentContainer.add_entity]
    | set e1 v =>
      simp only [hashRun]
      rw [ih]
      cases hl : lastSet e.index ops with
      | some w => simp [lastSet, hl, Option.or]
      | none =>
        by_cases he : e1.index = e.index <;>
          simp [lastSet, hl, Option.or, he, HashComponentContainer.get,
            HashComponentContainer.set, hashFind_insert]

/-- C1: in both container variants, for every trace of registration and
set calls that completes without a panic, get returns exactly the value of
the last set call for that entity index — so a value set and never
overwritten is returned as is, and a present result exists only when some
set call targeted the index (nothing ever removes a component). -/
theorem set_then_get_returns_last_value :
    (∀ (α : Type) (ops : List (ContainerOp α))
      (s2 : DenseComponentContainer α),
      denseRun DenseComponentContainer.new ops = some s2 →
      ∀ e : Entity, s2.get e = lastSet e.index ops) ∧
    (∀ (α : Type) (ops : List (ContainerOp α)) (e : Entity),
      (hashRun HashComponentContainer.new ops).get e = lastSet e.index ops) := by
  constructor
  · intro α ops s2 h e
    rw [denseRun_get ops _ s2 h e]
    cases hl : lastSet e.index ops <;>
      simp [hl, Option.or, DenseComponentContainer.new,
        DenseComponentContainer.get]
  · intro α ops e
    rw [hashRun_get ops _ e]
    cases hl : lastSet e.index ops <;>
      simp [hl, Option.or, HashComponentContainer.new,
        HashComponentContainer.get, hashFind]

/-- Witness for C1 on a concrete trace with an overwritten index and an
untouched one. -/
theorem set_then_get_returns_last_value_witness :
    DenseComponentContainer.get (⟨[some 9, some 5, none]⟩ :
        DenseComponentContainer Nat) (Entity.new 1) =
      lastSet 1 [ContainerOp.add (Entity.new 2),
        ContainerOp.set (Entity.new 1) 4, ContainerOp.set (Entity.new 0) 9,
        ContainerOp.set (Entity.new 1) 5] ∧
    HashComponentContainer.get
        (hashRun HashComponentContainer.new
          [ContainerOp.set (Entity.new 3) 4, ContainerOp.set (Entity.new 3) 6])
        (Entity.new 3) =
      lastSet 3 [ContainerOp.set (Entity.new 3) 4,
        ContainerOp.set (Entity.new 3) 6] := by
  constructor
  · exact set_then_get_returns_last_value.1 Nat _ ⟨[some 9, some 5, none]⟩
      (by simp [denseRun, DenseComponentContainer.new,
        DenseComponentContainer.add_entity, DenseComponentContainer.set,
        growLoop_eq, List.replicate, Entity.new]) (Entity.new 1)
  · exact set_then_get_returns_last_value.2 Nat _ (Entity.new 3)

/-- World from world.rs, parametrized by the state type of the registered
container collection and its add_entity broadcast. -/
structure World (σ : Type) where
  last_entity : Nat
  containers : σ

/-- World::new with the WorldContainer::new result for the container
collection. -/
def World.new {σ : Type} (initContainers : σ) : World σ :=
  { last_entity := 0, containers := initContainers }

/-- World::spawn: build an entity from the counter, increment the counter,
broadcast add_entity to the containers, return the entity. -/
def World.spawn {σ : Type} (addE : Entity → σ → σ) (w : World σ) :
    World σ × Entity :=
  let entity := Entity.new w.last_entity
  ({ last_entity := w.last_entity + 1,
     containers := addE entity w.containers }, entity)

/-- The world after n spawn calls. -/
def World.spawnMany {σ : Type} (addE : Entity → σ → σ) (w : World σ) :
    Nat → World σ
  | 0 => w
  | n + 1 => (World.spawn addE (World.spawnMany addE w n)).1

/-- C6: on a fresh world the counter after n spawns is n, the container
state is the add_entity broadcast folded over entities 0..n in order, and
the next (that is, the n-th, counting from zero) spawn call returns the
entity with index exactly n, generation zero. -/
theorem spawn_monotonic_and_broadcasts {σ : Type}
    (addE : Entity → σ → σ) (init : σ) (n : Nat) :
    World.spawnMany addE (World.new init) n =
      { last_entity := n,
        containers :=
          (List.range n).foldl (fun s i => addE (Entity.new i) s) init } ∧
    (World.spawn addE (World.spawnMany addE (World.new init) n)).2 =
      Entity.new n := by
  have key : ∀ m : Nat, World.spawnMany addE (World.new init) m =
      { last_entity := m,
        containers :=
          (List.range m).foldl (fun s i => addE (Entity.new i) s) init } := by
    intro m
    induction m with
    | zero => rfl
    | succ k ih =>
      simp only [World.spawnMany, ih, World.spawn, List.range_succ,
        List.foldl_append, List.foldl_cons, List.foldl_nil]
  exact ⟨key n, by rw [key n]; rfl⟩

/-- C9: every entity produced by Entity::new or World::spawn carries
generation zero, and the core container operations depend only on the
index field, never on the generation field. -/
theorem generation_always_zero_and_unused {α σ : Type} :
    (∀ i : Nat, (Entity.new i).generation = 0) ∧
    (∀ (addE : Entity → σ → σ) (w : World σ),
      ((World.spawn addE w).2).generation = 0) ∧
    (∀ (s : DenseComponentContainer α) (e e2 : Entity) (v : α),
      e.index = e2.index →
      s.get e = s.get e2 ∧ s.set e v = s.set e2 v ∧
      s.add_entity e = s.add_entity e2) ∧
    (∀ (s : HashComponentContainer α) (e e2 : Entity) (v : α),
      e.index = e2.index →
      s.get e = s.get e2 ∧ s.set e v = s.set e2 v ∧
      s.add_entity e = s.add_entity e2) := by
  refine ⟨fun _ => rfl, fun _ _ => rfl, ?_, ?_⟩
  · intro s e e2 v h
    constructor
    · simp [DenseComponentContainer.get, h]
    constructor
    · simp [DenseComponentContainer.set, h]
    · simp [DenseComponentContainer.add_entity, h]
  · intro s e e2 v h
    constructor
    · simp [HashComponentContainer.get, h]
    constructor
    · simp [HashComponentContainer.set, h]
    · simp [HashComponentContainer.add_entity, h]

/-- Witness for C9 at two concrete entities sharing an index. -/
theorem generation_always_zero_and_unused_witness :
    DenseComponentContainer.get (⟨[some 4]⟩ : DenseComponentContainer Nat)
        ⟨0, 0⟩ =
      DenseComponentContainer.get (⟨[some 4]⟩ : DenseComponentContainer Nat)
        ⟨0, 7⟩ :=
  ((generation_always_zero_and_unused (α := Nat) (σ := Unit)).2.2.1
    ⟨[some 4]⟩ ⟨0, 0⟩ ⟨0, 7⟩ 4 rfl).1

/-- Modelled from the spec: the file vec_container.rs is not among the
provided sources. VecComponentContainer is the dense positional container
consumed by zip.rs and query.rs: a backing sequence of optional values
aligned with entity indices plus a bookkeeping list of active indices,
both fields read directly by zip.rs. -/
structure VecComponentContainer (α : Type) where
  container : List (Option α)
  active_indices : List Nat
  deriving DecidableEq

/-- Modelled from the spec: VecComponentContainer get is the positional
bounds-checked lookup of the dense layout, returning a value or the empty
result, never faulting. -/
def VecComponentContainer.get {α : Type} (c : VecComponentContainer α)
    (e : Entity) : Option α :=
  match c.container[e.index]? with
  | some (some v) => some v
  | _ => none

/-- Modelled from the spec: the callback sequence of VecComponentContainer
for_each, the full scan of the dense layout: visit every slot in index
order, skipping the empty ones. -/
def VecComponentContainer.forEachCalls {α : Type}
    (c : VecComponentContainer α) : List (Nat × α) :=
  (List.range c.container.length).filterMap fun i =>
    ((c.container[i]?).join).map fun a => (i, a)

/-- ZippedQuery2 from zip.rs: raw views of the two backing sequences, the
shared scan length, and the shorter active-index list. -/
structure ZippedQuery2 (α β : Type) where
  container1 : List (Option α)
  container2 : List (Option β)
  len : Nat
  shortest_active_indices : List Nat
  deriving DecidableEq

/-- ZippedQuery2::new from zip.rs: assert_eq on the two backing lengths
(the panic is modelled as none), then record the shared length and the
shorter active-index list. -/
def ZippedQuery2.new {α β : Type} (c1 : VecComponentContainer α)
    (c2 : VecComponentContainer β) : Option (ZippedQuery2 α β) :=
  if c1.container.length = c2.container.length then
    some { container1 := c1.container
           container2 := c2.container
           len := c1.container.length
           shortest_active_indices :=
             if c1.active_indices.length ≤ c2.active_indices.length then
               c1.active_indices
             else
               c2.active_indices }
  else
    none

/-- The callback sequence of ZippedQuery2::for_each: scan indices 0..len
and visit only the indices where both slots hold a value. -/
def ZippedQuery2.forEachCalls {α β : Type} (z : ZippedQuery2 α β) :
    List (Nat × α × β) :=
  (List.range z.len).filterMap fun i =>
    match (z.container1[i]?).join, (z.container2[i]?).join with
    | some a, some b => some (i, a, b)
    | _, _ => none

/-- ZippedQuery3 from zip.rs. -/
structure ZippedQuery3 (α β γ : Type) where
  container1 : List (Option α)
  container2 : List (Option β)
  container3 : List (Option γ)
  len : Nat
  shortest_active_indices : List Nat
  deriving DecidableEq

/-- ZippedQuery3::new from zip.rs: assert_eq on the lengths of the first
two backing sequences only — the third length is never checked — then the
scan length is the minimum of the first two lengths. -/
def ZippedQuery3.new {α β γ : Type} (c1 : VecComponentContainer α)
    (c2 : VecComponentContainer β) (c3 : VecComponentContainer γ) :
    Option (ZippedQuery3 α β γ) :=
  if c1.container.length = c2.container.length then
    some { container1 := c1.container
           container2 := c2.container
           container3 := c3.container
           len := min c1.container.length c2.container.length
           shortest_active_indices :=
             if c1.active_indices.length ≤ c2.active_indices.length ∧
                 c1.active_indices.length ≤ c3.active_indices.length then
               c1.active_indices
             else if c2.active_indices.length ≤ c3.active_indices.length then
               c2.active_indices
             else
               c3.active_indices }
  else
    none

/-- The callback sequence of ZippedQuery3::for_each: scan indices 0..len
and visit only the indices where all three slots hold a value. In the Rust
source the reads are raw pointer dereferences, in bounds only when the
three backing lengths agree. -/
def ZippedQuery3.forEachCalls {α β γ : Type} (z : ZippedQuery3 α β γ) :
    List (Nat × α × β × γ) :=
  (List.range z.len).filterMap fun i =>
    match (z.container1[i]?).join, (z.container2[i]?).join,
        (z.container3[i]?).join with
    | some a, some b, some c => some (i, a, b, c)
    | _, _, _ => none

/-- C4: the two-way zip does fail fatally exactly on mismatched backing
lengths, but the three-way zip checks only the first two operands: at the
concrete failing input with backing lengths (1, 1, 0) the construction
succeeds even though the third length differs, contradicting the claimed
fatal failure — and the subsequent scan would read the third container out
of bounds. -/
theorem zip_length_check {α β : Type} :
    (∀ (c1 : VecComponentContainer α) (c2 : VecComponentContainer β),
      (ZippedQuery2.new c1 c2).isSome ↔
        c1.container.length = c2.container.length) ∧
    (ZippedQuery3.new (⟨[some 0], []⟩ : VecComponentContainer Nat)
        (⟨[some 0], []⟩ : VecComponentContainer Nat)
        (⟨[], []⟩ : VecComponentContainer Nat)).isSome = true ∧
    (ZippedQuery3.new (⟨[some 0], []⟩ : VecComponentContainer Nat)
          (⟨[some 0], []⟩ : VecComponentContainer Nat)
          (⟨[], []⟩ : VecComponentContainer Nat)).map (fun z => z.len) =
      some 1 := by
  refine ⟨?_, by decide, by decide⟩
  intro c1 c2
  simp only [ZippedQuery2.new]
  split
  next h => simpa using h
  next h => simpa using h

/-- safe_entity_new from query.rs: refuse the maximal usize index,
otherwise build the entity. -/
def safe_entity_new (entity_index : Nat) : Option Entity :=
  if entity_index = USIZE_MAX then none else some (Entity.new entity_index)

/-- The callback sequence of query_tuple_generic_containers from query.rs:
iterate the for_each output of operand A and probe operand B through get,
skipping silently whenever safe_entity_new refuses the index. -/
def query_tuple_generic_calls {α β : Type} (forEachA : List (Nat × α))
    (getB : Entity → Option β) : List (Nat × α × β) :=
  forEachA.filterMap fun p =>
    match safe_entity_new p.1 with
    | some e =>
      match getB e with
      | some b => some (p.1, p.2, b)
      | none => none
    | none => none

/-- The callback sequence of query_triple_generic_containers from
query.rs: iterate operand A, probe operands B and C. -/
def query_triple_generic_calls {α β γ : Type} (forEachA : List (Nat × α))
    (getB : Entity → Option β) (getC : Entity → Option γ) :
    List (Nat × α × β × γ) :=
  forEachA.filterMap fun p =>
    match safe_entity_new p.1 with
    | some e =>
      match getB e with
      | some b =>
        match getC e with
        | some c => some (p.1, p.2, b, c)
        | none => none
      | none => none
    | none => none

/-- The callback sequence of query_tuple_vec_containers from query.rs:
construct the two-way zip (none when the length assert panics) and run its
aligned scan. -/
def query_tuple_vec_calls {α β : Type} (c1 : VecComponentContainer α)
    (c2 : VecComponentContainer β) : Option (List (Nat × α × β)) :=
  (ZippedQuery2.new c1 c2).map ZippedQuery2.forEachCalls

/-- VecComponentContainer get agrees with the flattened positional
read. -/
theorem vec_get_eq_join {α : Type} (c : VecComponentContainer α)
    (e : Entity) : c.get e = (c.container[e.index]?).join := by
  unfold VecComponentContainer.get
  cases h : c.container[e.index]? with
  | none => rfl
  | some o => cases o <;> rfl

/-- The fallback probe path over two dense operands equals the canonical
aligned scan, as lists, once every scanned index is below USIZE_MAX. -/
theorem generic_calls_on_vec {α β : Type} (c1 : VecComponentContainer α)
    (c2 : VecComponentContainer β)
    (hmax : c1.container.length ≤ USIZE_MAX) :
    query_tuple_generic_calls c1.forEachCalls (fun e => c2.get e) =
      (List.range c1.container.length).filterMap fun i =>
        match (c1.container[i]?).join, (c2.container[i]?).join with
        | some a, some b => some (i, a, b)
        | _, _ => none := by
  unfold query_tuple_generic_calls VecComponentContainer.forEachCalls
  rw [List.filterMap_filterMap]
  apply List.filterMap_congr
  intro i hi
  have hiR : i < c1.container.length := List.mem_range.mp hi
  have hne : i ≠ USIZE_MAX := by omega
  cases hj : (c1.container[i]?).join with
  | none => rfl
  | some a =>
    simp only [Option.map_some', Option.some_bind]
    rw [safe_entity_new, if_neg hne]
    show (match c2.get (Entity.new i) with
      | some b => some (i, a, b)
      | none => none) = _
    rw [vec_get_eq_join c2 (Entity.new i)]
    show (match (c2.container[i]?).join with
      | some b => some (i, a, b)
      | none => none) = _
    cases hj2 : (c2.container[i]?).join <;> rfl

/-- C2: whenever the fast dense-path two-way join is taken (both operands
are vec containers of equal backing length, as its assert demands), it
invokes the callback on exactly the same multiset of
(entity index, component values) results as the fallback probe path over
the same two containers. -/
theorem dense_and_fallback_join_same_results {α β : Type}
    (c1 : VecComponentContainer α) (c2 : VecComponentContainer β)
    (hlen : c1.container.length = c2.container.length)
    (hmax : c1.container.length ≤ USIZE_MAX) :
    ∃ z, ZippedQuery2.new c1 c2 = some z ∧
      (z.forEachCalls : Multiset (Nat × α × β)) =
        (query_tuple_generic_calls c1.forEachCalls (fun e => c2.get e) :
          Multiset (Nat × α × β)) := by
  refine ⟨_, by rw [ZippedQuery2.new, if_pos hlen], ?_⟩
  rw [generic_calls_on_vec c1 c2 hmax]
  rfl

/-- Witness for C2 on concrete containers with a hole in the first
operand. -/
theorem dense_and_fallback_join_same_results_witness :
    ∃ z, ZippedQuery2.new
        (⟨[some 1, none], []⟩ : VecComponentContainer Nat)
        (⟨[some 2, some 3], []⟩ : VecComponentContainer Nat) = some z ∧
      (z.forEachCalls : Multiset (Nat × Nat × Nat)) =
        (query_tuple_generic_calls
          (VecComponentContainer.forEachCalls ⟨[some 1, none], []⟩)
          (fun e => VecComponentContainer.get ⟨[some 2, some 3], []⟩ e) :
          Multiset (Nat × Nat × Nat)) :=
  dense_and_fallback_join_same_results _ _ rfl (by decide)

/-- Flattened positional reads succeed only inside the backing length. -/
theorem join_isSome_lt {α : Type} (l : List (Option α)) (i : Nat)
    (h : ((l[i]?).join).isSome) : i < l.length := by
  by_contra hc
  push_neg at hc
  rw [List.getElem?_eq_none hc] at h
  simp at h

/-- Key projection of a key-preserving filterMap: the keys of the output
are the keys that survive the filter. -/
theorem map_fst_filterMap_eq {γ δ : Type} (key : γ → Nat)
    (g : γ → Option (Nat × δ)) (p : γ → Bool)
    (h : ∀ a, (g a).map Prod.fst = if p a then some (key a) else none)
    (l : List γ) :
    (l.filterMap g).map Prod.fst = (l.filter p).map key := by
  induction l with
  | nil => rfl
  | cons a t ih =>
    by_cases hp : p a = true
    · have hmap := h a
      rw [if_pos hp] at hmap
      cases hg : g a with
      | none => rw [hg] at hmap; simp at hmap
      | some q =>
        rw [hg] at hmap
        simp only [Option.map_some', Option.some.injEq] at hmap
        simp [List.filterMap_cons, List.filter_cons, hg, hp, hmap, ih]
    · have hmap := h a
      rw [if_neg hp] at hmap
      cases hg : g a with
      | some q => rw [hg] at hmap; simp at hmap
      | none => simp [List.filterMap_cons, List.filter_cons, hg, hp, ih]

/-- C3 counterexample: two hash containers both hold a present value at
index USIZE_MAX, yet the fallback probe path never calls the callback, so
a match is skipped. -/
theorem fallback_join_skips_usize_max :
    query_tuple_generic_calls
        (HashComponentContainer.forEachCalls
          (⟨[(USIZE_MAX, 5)]⟩ : HashComponentContainer Nat))
        (fun e =>
          HashComponentContainer.get
            (⟨[(USIZE_MAX, 7)]⟩ : HashComponentContainer Nat) e) = [] ∧
    HashComponentContainer.get
        (⟨[(USIZE_MAX, 5)]⟩ : HashComponentContainer Nat)
        (Entity.new USIZE_MAX) = some 5 ∧
    HashComponentContainer.get
        (⟨[(USIZE_MAX, 7)]⟩ : HashComponentContainer Nat)
        (Entity.new USIZE_MAX) = some 7 := by
  refine ⟨?_, ?_, ?_⟩ <;> rfl

/-- Key projection of one step of the two-way aligned scan. -/
theorem zip2_step_fst {α β : Type} (l1 : List (Option α))
    (l2 : List (Option β)) (a : Nat) :
    Option.map Prod.fst
      (match (l1[a]?).join, (l2[a]?).join with
      | some x, some y => some (a, x, y)
      | _, _ => none) =
    if ((l1[a]?).join).isSome && ((l2[a]?).join).isSome then some a
    else none := by
  cases h1 : (l1[a]?).join <;> cases h2 : (l2[a]?).join <;> simp [h1, h2]

/-- Key projection of one step of the three-way aligned scan. -/
theorem zip3_step_fst {α β γ : Type} (l1 : List (Option α))
    (l2 : List (Option β)) (l3 : List (Option γ)) (a : Nat) :
    Option.map Prod.fst
      (match (l1[a]?).join, (l2[a]?).join, (l3[a]?).join with
      | some x, some y, some w => some (a, x, y, w)
      | _, _, _ => none) =
    if ((l1[a]?).join).isSome && (((l2[a]?).join).isSome &&
        ((l3[a]?).join).isSome) then some a
    else none := by
  cases h1 : (l1[a]?).join <;> cases h2 : (l2[a]?).join <;>
    cases h3 : (l3[a]?).join <;> simp [h1, h2, h3]

/-- Exactness of the canonical two-way aligned scan: each index with both
slots present is visited once, nothing else is visited. -/
theorem zip2_scan_exact {α β : Type} (l1 : List (Option α))
    (l2 : List (Option β)) (n : Nat) (hn1 : n = l1.length)
    (hn2 : l1.length = l2.length) :
    ((((List.range n).filterMap fun i =>
        match (l1[i]?).join, (l2[i]?).join with
        | some a, some b => some (i, a, b)
        | _, _ => none)).map Prod.fst).Nodup ∧
    ∀ i, (i ∈ (((List.range n).filterMap fun i =>
        match (l1[i]?).join, (l2[i]?).join with
        | some a, some b => some (i, a, b)
        | _, _ => none)).map Prod.fst ↔
      ((l1[i]?).join).isSome ∧ ((l2[i]?).join).isSome) := by
  have heq := map_fst_filterMap_eq (fun a => a)
    (fun i => match (l1[i]?).join, (l2[i]?).join with
      | some a, some b => some (i, a, b)
      | _, _ => none)
    (fun i => ((l1[i]?).join).isSome && ((l2[i]?).join).isSome)
    (fun a => zip2_step_fst l1 l2 a)
    (List.range n)
  rw [List.map_id'] at heq
  rw [heq]
  refine ⟨(List.nodup_range n).filter _, ?_⟩
  intro i
  rw [List.mem_filter, List.mem_range, Bool.and_eq_true]
  constructor
  · rintro ⟨_, h1, h2⟩
    exact ⟨h1, h2⟩
  · rintro ⟨h1, h2⟩
    have := join_isSome_lt l1 i h1
    exact ⟨by omega, h1, h2⟩

/-- Exactness of the canonical three-way aligned scan. -/
theorem zip3_scan_exact {α β γ : Type} (l1 : List (Option α))
    (l2 : List (Option β)) (l3 : List (Option γ)) (n : Nat)
    (hn1 : n = l1.length) (hn2 : l1.length = l2.length)
    (hn3 : l1.length = l3.length) :
    ((((List.range n).filterMap fun i =>
        match (l1[i]?).join, (l2[i]?).join, (l3[i]?).join with
        | some a, some b, some c => some (i, a, b, c)
        | _, _, _ => none)).map Prod.fst).Nodup ∧
    ∀ i, (i ∈ (((List.range n).filterMap fun i =>
        match (l1[i]?).join, (l2[i]?).join, (l3[i]?).join with
        | some a, some b, some c => some (i, a, b, c)
        | _, _, _ => none)).map Prod.fst ↔
      ((l1[i]?).join).isSome ∧ ((l2[i]?).join).isSome ∧
        ((l3[i]?).join).isSome) := by
  have heq := map_fst_filterMap_eq (fun a => a)
    (fun i => match (l1[i]?).join, (l2[i]?).join, (l3[i]?).join with
      | some a, some b, some c => some (i, a, b, c)
      | _, _, _ => none)
    (fun i => ((l1[i]?).join).isSome && (((l2[i]?).join).isSome &&
      ((l3[i]?).join).isSome))
    (fun a => zip3_step_fst l1 l2 l3 a)
    (List.range n)
  rw [List.map_id'] at heq
  rw [heq]
  refine ⟨(List.nodup_range n).filter _, ?_⟩
  intro i
  rw [List.mem_filter, List.mem_range, Bool.and_eq_true, Bool.and_eq_true]
  constructor
  · rintro ⟨_, h1, h2, h3⟩
    exact ⟨h1, h2, h3⟩
  · rintro ⟨h1, h2, h3⟩
    have := join_isSome_lt l1 i h1
    exact ⟨by omega, h1, h2, h3⟩

/-- Exactness of the fallback probe path over two operands: one call per
key of operand A present in operand B, except that the key USIZE_MAX is
always skipped. -/
theorem generic2_calls_exact {α β : Type} (entriesA : List (Nat × α))
    (getB : Entity → Option β) (hnd : (entriesA.map Prod.fst).Nodup) :
    ((query_tuple_generic_calls entriesA getB).map Prod.fst).Nodup ∧
    ∀ i, (i ∈ (query_tuple_generic_calls entriesA getB).map Prod.fst ↔
      i ≠ USIZE_MAX ∧ (∃ a, (i, a) ∈ entriesA) ∧
        (getB (Entity.new i)).isSome) := by
  have heq : (query_tuple_generic_calls entriesA getB).map Prod.fst =
      (entriesA.filter fun q =>
        !(q.1 == USIZE_MAX) && (getB (Entity.new q.1)).isSome).map Prod.fst := by
    apply map_fst_filterMap_eq Prod.fst _ _ ?_ entriesA
    intro a
    by_cases hm : a.1 = USIZE_MAX
    · simp [safe_entity_new, hm]
    · simp only [safe_entity_new, if_neg hm]
      cases hb : getB (Entity.new a.1) <;> simp [hm, hb]
  rw [heq]
  constructor
  · exact List.Nodup.sublist
      (List.Sublist.map Prod.fst (List.filter_sublist entriesA)) hnd
  · intro i
    rw [List.mem_map]
    constructor
    · rintro ⟨q, hq, hq1⟩
      rw [List.mem_filter] at hq
      rcases hq with ⟨hqA, hp⟩
      rw [Bool.and_eq_true] at hp
      rcases hp with ⟨hp1, hp2⟩
      subst hq1
      refine ⟨by simpa using hp1, ⟨q.2, by simpa [Prod.mk.eta] using hqA⟩,
        hp2⟩
    · rintro ⟨hne, ⟨a, ha⟩, hb⟩
      refine ⟨(i, a), ?_, rfl⟩
      rw [List.mem_filter]
      exact ⟨ha, by simp [hne, hb]⟩

/-- Exactness of the fallback probe path over three operands. -/
theorem generic3_calls_exact {α β γ : Type} (entriesA : List (Nat × α))
    (getB : Entity → Option β) (getC : Entity → Option γ)
    (hnd : (entriesA.map Prod.fst).Nodup) :
    ((query_triple_generic_calls entriesA getB getC).map Prod.fst).Nodup ∧
    ∀ i, (i ∈ (query_triple_generic_calls entriesA getB getC).map Prod.fst ↔
      i ≠ USIZE_MAX ∧ (∃ a, (i, a) ∈ entriesA) ∧
        (getB (Entity.new i)).isSome ∧ (getC (Entity.new i)).isSome) := by
  have heq : (query_triple_generic_calls entriesA getB getC).map Prod.fst =
      (entriesA.filter fun q =>
        !(q.1 == USIZE_MAX) && ((getB (Entity.new q.1)).isSome &&
          (getC (Entity.new q.1)).isSome)).map Prod.fst := by
    apply map_fst_filterMap_eq Prod.fst _ _ ?_ entriesA
    intro a
    by_cases hm : a.1 = USIZE_MAX
    · simp [safe_entity_new, hm]
    · simp only [safe_entity_new, if_neg hm]
      cases hb : getB (Entity.new a.1) <;>
        cases hc : getC (Entity.new a.1) <;> simp [hm, hb, hc]
  rw [heq]
  constructor
  · exact List.Nodup.sublist
      (List.Sublist.map Prod.fst (List.filter_sublist entriesA)) hnd
  · intro i
    rw [List.mem_map]
    constructor
    · rintro ⟨q, hq, hq1⟩
      rw [List.mem_filter] at hq
      rcases hq with ⟨hqA, hp⟩
      rw [Bool.and_eq_true, Bool.and_eq_true] at hp
      rcases hp with ⟨hp1, hp2, hp3⟩
      subst hq1
      refine ⟨by simpa using hp1, ⟨q.2, by simpa [Prod.mk.eta] using hqA⟩,
        hp2, hp3⟩
    · rintro ⟨hne, ⟨a, ha⟩, hb, hc⟩
      refine ⟨(i, a), ?_, rfl⟩
      rw [List.mem_filter]
      exact ⟨ha, by simp [hne, hb, hc]⟩

/-- C3 amended: the aligned-scan zip paths, two- and three-way, under the
equal-length precondition, call the callback exactly once for every index
at which all operand containers hold a present value and never otherwise;
the fallback probe paths do the same for every index except USIZE_MAX,
which they always skip, even when every operand holds a value there. -/
theorem join_exact_matches_amended :
    (∀ (α β : Type) (c1 : VecComponentContainer α)
      (c2 : VecComponentContainer β) (z : ZippedQuery2 α β),
      ZippedQuery2.new c1 c2 = some z →
      (z.forEachCalls.map Prod.fst).Nodup ∧
      ∀ i, (i ∈ z.forEachCalls.map Prod.fst ↔
        ((c1.container[i]?).join).isSome ∧
          ((c2.container[i]?).join).isSome)) ∧
    (∀ (α β γ : Type) (c1 : VecComponentContainer α)
      (c2 : VecComponentContainer β) (c3 : VecComponentContainer γ)
      (z : ZippedQuery3 α β γ),
      ZippedQuery3.new c1 c2 c3 = some z →
      c1.container.length = c3.container.length →
      (z.forEachCalls.map Prod.fst).Nodup ∧
      ∀ i, (i ∈ z.forEachCalls.map Prod.fst ↔
        ((c1.container[i]?).join).isSome ∧
          ((c2.container[i]?).join).isSome ∧
          ((c3.container[i]?).join).isSome)) ∧
    (∀ (α β : Type) (entriesA : List (Nat × α)) (getB : Entity → Option β),
      (entriesA.map Prod.fst).Nodup →
      ((query_tuple_generic_calls entriesA getB).map Prod.fst).Nodup ∧
      ∀ i, (i ∈ (query_tuple_generic_calls entriesA getB).map Prod.fst ↔
        i ≠ USIZE_MAX ∧ (∃ a, (i, a) ∈ entriesA) ∧
          (getB (Entity.new i)).isSome)) ∧
    (∀ (α β γ : Type) (entriesA : List (Nat × α))
      (getB : Entity → Option β) (getC : Entity → Option γ),
      (entriesA.map Prod.fst).Nodup →
      ((query_triple_generic_calls entriesA getB getC).map Prod.fst).Nodup ∧
      ∀ i, (i ∈ (query_triple_generic_calls entriesA getB getC).map
          Prod.fst ↔
        i ≠ USIZE_MAX ∧ (∃ a, (i, a) ∈ entriesA) ∧
          (getB (Entity.new i)).isSome ∧ (getC (Entity.new i)).isSome)) := by
  refine ⟨?_, ?_, ?_, ?_⟩
  · intro α β c1 c2 z hnew
    rw [ZippedQuery2.new] at hnew
    split at hnew
    next hlen =>
      cases hnew
      exact zip2_scan_exact c1.container c2.container c1.container.length
        rfl hlen
    next => cases hnew
  · intro α β γ c1 c2 c3 z hnew h13
    rw [ZippedQuery3.new] at hnew
    split at hnew
    next hlen =>
      cases hnew
      exact zip3_scan_exact c1.container c2.container c3.container
        (min c1.container.length c2.container.length) (by omega) hlen h13
    next => cases hnew
  · intro α β entriesA getB hnd
    exact generic2_calls_exact entriesA getB hnd
  · intro α β γ entriesA getB getC hnd
    exact generic3_calls_exact entriesA getB getC hnd

/-- Witness for the amended C3 at concrete containers on both paths. -/
theorem join_exact_matches_amended_witness :
    (0 : Nat) ∈ ((ZippedQuery2.forEachCalls
      (⟨[some 1], [some 2], 1, []⟩ : ZippedQuery2 Nat Nat)).map Prod.fst) ∧
    (5 : Nat) ∈ ((query_tuple_generic_calls [((5 : Nat), (3 : Nat))]
      (fun _ => some (4 : Nat))).map Prod.fst) := by
  constructor
  · exact ((join_exact_matches_amended.1 Nat Nat ⟨[some 1], []⟩
      ⟨[some 2], []⟩ ⟨[some 1], [some 2], 1, []⟩ rfl).2 0).mpr
      (by constructor <;> decide)
  · exact ((join_exact_matches_amended.2.2.1 Nat Nat [(5, 3)]
      (fun _ => some 4) (by decide)).2 5).mpr
      ⟨by decide, ⟨3, by decide⟩, by decide⟩

/-- Modelled from the spec: the intrusive-linked dense container of
vec_container.rs, a file absent from the provided sources. Payload slots
plus the next and prev back-channel link fields embedded alongside each
component and a most-recently-set head pointer; set always inserts at the
head without first splicing out an entity that is already in the list, a
blind re-link that the spec describes as inherited from the source. -/
structure IntrusiveVecContainer (α : Type) where
  payload : List (Option α)
  next_links : List (Option Nat)
  prev_links : List (Option Nat)
  head : Option Nat
  deriving DecidableEq

/-- The fresh intrusive container. -/
def IntrusiveVecContainer.new {α : Type} : IntrusiveVecContainer α :=
  ⟨[], [], [], none⟩

/-- Modelled from the spec: registration grows every slot column with
empty values up to the entity index. -/
def IntrusiveVecContainer.add_entity {α : Type}
    (s : IntrusiveVecContainer α) (e : Entity) : IntrusiveVecContainer α :=
  { payload := growLoop e.index s.payload
    next_links := growLoop e.index s.next_links
    prev_links := growLoop e.index s.prev_links
    head := s.head }

/-- Modelled from the spec: set as blind insert-at-head — write the
payload slot, point its next link at the old head, point the old head back
at the new node, clear its prev link, and move the head. -/
def IntrusiveVecContainer.set {α : Type} (s : IntrusiveVecContainer α)
    (e : Entity) (v : α) : IntrusiveVecContainer α :=
  let prevs :=
    match s.head with
    | some h => s.prev_links.set h (some e.index)
    | none => s.prev_links
  { payload := s.payload.set e.index (some v)
    next_links := s.next_links.set e.index s.head
    prev_links := prevs.set e.index none
    head := some e.index }

/-- Follow the next links for at most fuel steps; the Rust traversal runs
with no such bound, so a traversal that exhausts any fuel larger than the
occupancy is a traversal that revisits slots. -/
def IntrusiveVecContainer.traverseFrom {α : Type}
    (s : IntrusiveVecContainer α) : Nat → Option Nat → List Nat
  | 0, _ => []
  | _ + 1, none => []
  | fuel + 1, some i => i :: s.traverseFrom fuel ((s.next_links[i]?).join)

/-- Modelled from the spec: the index sequence visited by for_each_sparse,
starting at the head, bounded by fuel. -/
def IntrusiveVecContainer.for_each_sparse_calls {α : Type}
    (s : IntrusiveVecContainer α) (fuel : Nat) : List Nat :=
  s.traverseFrom fuel s.head

/-- Growing a fresh intrusive container produces all-empty columns. -/
theorem intrusive_new_grow (k : Nat) :
    (IntrusiveVecContainer.new (α := Nat)).add_entity (Entity.new k) =
      ⟨List.replicate (k + 1) none, List.replicate (k + 1) none,
        List.replicate (k + 1) none, none⟩ := by
  simp [IntrusiveVecContainer.new, IntrusiveVecContainer.add_entity,
    growLoop_eq, Entity.new]

/-- A trace that re-sets entity 0: grow to two slots, set 0, set 1, set 0
again. -/
def intrusiveResetExample : IntrusiveVecContainer Nat :=
  ((((IntrusiveVecContainer.new).add_entity (Entity.new 1)).set
    (Entity.new 0) 10).set (Entity.new 1) 11).set (Entity.new 0) 12

/-- The concrete state reached by the re-set trace: the next links of
slots 0 and 1 now point at each other, a cycle. -/
theorem intrusiveResetExample_eq :
    intrusiveResetExample =
      ⟨[some 12, some 11], [some 1, some 0], [none, some 0], some 0⟩ := by
  rw [intrusiveResetExample, intrusive_new_grow]
  decide

/-- A trace of three distinct entities set in index order. -/
def intrusiveOrderExample : IntrusiveVecContainer Nat :=
  (((((IntrusiveVecContainer.new).add_entity (Entity.new 2)).set
    (Entity.new 0) 0).set (Entity.new 1) 1).set (Entity.new 2) 2)

/-- C5, settled on the failing input: after setting entities 0, 1 and then
0 again, the container holds exactly two occupied slots, yet the sparse
traversal cycles through 0, 1, 0, 1, ... and consumes any fuel, so it
revisits slots and never terminates at the occupancy count — while on a
trace of three distinct entities the traversal does visit exactly the
occupied slots once each in reverse set order. -/
theorem intrusive_reset_corrupts_list :
    intrusiveResetExample.for_each_sparse_calls 5 = [0, 1, 0, 1, 0] ∧
    (List.range intrusiveResetExample.payload.length).filter
      (fun i => ((intrusiveResetExample.payload[i]?).join).isSome) =
        [0, 1] ∧
    intrusiveOrderExample.for_each_sparse_calls 5 = [2, 1, 0] := by
  rw [intrusiveResetExample_eq]
  refine ⟨by decide, by decide, ?_⟩
  rw [intrusiveOrderExample, intrusive_new_grow]
  decide

end GbaEcs
